import Mathlib

/-!
Shallow embedding of the lottery_hardhat repository's orchestration code:
the block-explorer verification helper (`verify`), the front-end address
registry update (`updateContractAddresses` in deploy/99-update-front-end.js),
and the externally consumed Raffle / VRF-mock call surface exercised by the
test suites.
-/

/-! ## Verification helper (utils/verify.js, src/unnamed/part_000) -/

/-- Log entries emitted by the verification helper: the initial
"verifying contract" line, the "contract already verified" notice, and the
generic error log of a caught error message. -/
inductive LogEntry where
  | verifyingContract
  | alreadyVerifiedNotice
  | errorLogged (msg : List Char)
  deriving DecidableEq

/-- Lowercasing of a message, embedding `e.message.toLowerCase()`. -/
def lowerMsg (msg : List Char) : List Char := msg.map Char.toLower

/-- Substring test, embedding JavaScript `String.prototype.includes`:
`containsSub needle hay` is true iff `needle` occurs contiguously in `hay`. -/
def containsSub (needle : List Char) : List Char → Bool
  | [] => needle.isEmpty
  | c :: rest => needle.isPrefixOf (c :: rest) || containsSub needle rest

/-- The pattern the catch-branch tests for. -/
def alreadyVerifiedPattern : List Char := "already verified".toList

/-- Embedding of `verify(contractAdress, args)`. The external
`run("verify:verify", ...)` call is abstracted by its outcome: `none` for
success, `some e` for a failure with error message `e`. The result is the
completion status of `verify` (an `Except.error` would model an uncaught
throw) together with the console log it produced. -/
def verify (contractAdress : List Char) (args : List (List Char))
    (runOutcome : Option (List Char)) : Except (List Char) Unit × List LogEntry :=
  match runOutcome with
  | none => (Except.ok (), [LogEntry.verifyingContract])
  | some e =>
    if containsSub alreadyVerifiedPattern (lowerMsg e) then
      (Except.ok (), [LogEntry.verifyingContract, LogEntry.alreadyVerifiedNotice])
    else
      (Except.ok (), [LogEntry.verifyingContract, LogEntry.errorLogged e])

/-! ## Front-end address registry (deploy/99-update-front-end.js) -/

/-- The parsed contents of `contractAddresses.json`: a JSON object mapping
chain-id strings to lists of address strings, modelled as an association
list in key-insertion order. -/
abbrev Registry := List (String × List String)

/-- Key lookup in the registry, embedding both `chainId in currentAddresses`
(presence) and `currentAddresses[chainId]` (value access). -/
def lookupReg : Registry → String → Option (List String)
  | [], _ => none
  | (k', v) :: rest, k => if k' = k then some v else lookupReg rest k

/-- Replacing the value stored at a key (in-place mutation of
`currentAddresses[chainId]`); appends the binding when the key is absent. -/
def setKey : Registry → String → List String → Registry
  | [], k, v => [(k, v)]
  | (k', v') :: rest, k, v =>
    if k' = k then (k, v) :: rest else (k', v') :: setKey rest k v

/-- Embedding of the body of `updateContractAddresses`: if the chain-id key
is present and the address is missing from its list, push the address; if
the key is absent, bind it to the one-element list; otherwise leave the
registry unchanged. -/
def updateContractAddresses (reg : Registry) (chainId addr : String) : Registry :=
  match lookupReg reg chainId with
  | some l => if addr ∈ l then reg else setKey reg chainId (l ++ [addr])
  | none => reg ++ [(chainId, [addr])]

/-- State of the registry file as seen by `readFileSync` + `JSON.parse`:
missing (read throws), present but not valid JSON (parse throws), or a
parsed registry. -/
inductive FileState where
  | missing
  | invalid
  | valid (reg : Registry)
  deriving DecidableEq

/-- The two front-end constant files touched by the deploy script. -/
structure Files where
  addresses : FileState
  abi : List Char
  deriving DecidableEq

/-- A write performed by the script on the registry file. -/
inductive WriteEvent where
  | writeAddresses (reg : Registry)
  deriving DecidableEq

/-- Embedding of one run of `updateContractAddresses` over the file system:
reading a missing or unparsable registry file throws before any write, so the
files are returned untouched with an empty write trace; on a valid registry
the updated registry is written back unconditionally. -/
def runAddressUpdate (fs : Files) (chainId addr : String) :
    Except Unit Unit × Files × List WriteEvent :=
  match fs.addresses with
  | FileState.valid reg =>
    let newReg := updateContractAddresses reg chainId addr
    (Except.ok (), Files.mk (FileState.valid newReg) fs.abi,
      [WriteEvent.writeAddresses newReg])
  | FileState.missing => (Except.error (), fs, [])
  | FileState.invalid => (Except.error (), fs, [])

/-! ## Registry lemmas -/

theorem lookupReg_append_of_none {r1 : Registry} {k : String}
    (h : lookupReg r1 k = none) (r2 : Registry) :
    lookupReg (r1 ++ r2) k = lookupReg r2 k := by
  induction r1 with
  | nil => rfl
  | cons p rest ih =>
    obtain ⟨k', v⟩ := p
    by_cases hk : k' = k
    · simp [lookupReg, hk] at h
    · simp only [lookupReg, hk, if_neg hk, List.cons_append] at h ⊢
      exact ih h

theorem lookupReg_append_of_some {r1 : Registry} {k : String} {v : List String}
    (h : lookupReg r1 k = some v) (r2 : Registry) :
    lookupReg (r1 ++ r2) k = some v := by
  induction r1 with
  | nil => simp [lookupReg] at h
  | cons p rest ih =>
    obtain ⟨k', v'⟩ := p
    by_cases hk : k' = k
    · simp only [lookupReg, if_pos hk, List.cons_append] at h ⊢
      exact h
    · simp only [lookupReg, if_neg hk, List.cons_append] at h ⊢
      exact ih h

theorem lookupReg_setKey_self (reg : Registry) (k : String) (v : List String) :
    lookupReg (setKey reg k v) k = some v := by
  induction reg with
  | nil => simp [setKey, lookupReg]
  | cons p rest ih =>
    obtain ⟨k', v'⟩ := p
    by_cases hk : k' = k
    · simp [setKey, lookupReg, hk]
    · simp [setKey, lookupReg, hk, ih]

theorem lookupReg_setKey_ne (reg : Registry) {k c : String} (v : List String)
    (h : k ≠ c) : lookupReg (setKey reg c v) k = lookupReg reg k := by
  induction reg with
  | nil => simp [setKey, lookupReg, Ne.symm h]
  | cons p rest ih =>
    obtain ⟨k', v'⟩ := p
    by_cases hk : k' = c
    · subst hk
      simp [setKey, lookupReg, Ne.symm h]
    · simp [setKey, lookupReg, hk, ih]

theorem mem_setKey {reg : Registry} {c : String} {v : List String} {p : String × List String}
    (h : p ∈ setKey reg c v) : p ∈ reg ∨ p = (c, v) := by
  induction reg with
  | nil =>
    simp [setKey] at h
    exact Or.inr h
  | cons q rest ih =>
    obtain ⟨k', v'⟩ := q
    by_cases hk : k' = c
    · simp only [setKey, if_pos hk, List.mem_cons] at h
      rcases h with h | h
      · exact Or.inr h
      · exact Or.inl (List.mem_cons_of_mem _ h)
    · simp only [setKey, if_neg hk, List.mem_cons] at h
      rcases h with h | h
      · exact Or.inl (h ▸ List.mem_cons_self _ _)
      · rcases ih h with h' | h'
        · exact Or.inl (List.mem_cons_of_mem _ h')
        · exact Or.inr h'

theorem lookupReg_mem {reg : Registry} {k : String} {v : List String}
    (h : lookupReg reg k = some v) : (k, v) ∈ reg := by
  induction reg with
  | nil => simp [lookupReg] at h
  | cons p rest ih =>
    obtain ⟨k', v'⟩ := p
    by_cases hk : k' = k
    · simp only [lookupReg, if_pos hk] at h
      subst hk
      obtain rfl : v' = v := Option.some.inj h
      exact List.mem_cons_self _ _
    · simp only [lookupReg, if_neg hk] at h
      exact List.mem_cons_of_mem _ (ih h)

/-- The registry list stored at the updated chain-id after one run: the old
list (empty when the key was absent) with the address appended exactly when
it was not already present. -/
theorem lookupReg_update_self (reg : Registry) (c a : String) :
    lookupReg (updateContractAddresses reg c a) c =
      some ((lookupReg reg c).getD [] ++
        (if a ∈ (lookupReg reg c).getD [] then [] else [a])) := by
  unfold updateContractAddresses
  cases hl : lookupReg reg c with
  | none =>
    rw [lookupReg_append_of_none hl]
    simp [lookupReg]
  | some l =>
    by_cases hm : a ∈ l
    · simp [hm, hl]
    · simp [hm, lookupReg_setKey_self]

/-- Chain-ids other than the updated one are untouched by one run. -/
theorem lookupReg_update_ne (reg : Registry) (c a : String) {k : String}
    (h : k ≠ c) : lookupReg (updateContractAddresses reg c a) k = lookupReg reg k := by
  unfold updateContractAddresses
  cases hl : lookupReg reg c with
  | none =>
    cases hk : lookupReg reg k with
    | none =>
      rw [lookupReg_append_of_none hk]
      simp [lookupReg, Ne.symm h]
    | some v => rw [lookupReg_append_of_some hk]
  | some l =>
    by_cases hm : a ∈ l
    · simp [hm]
    · simp [hm, lookupReg_setKey_ne _ _ h]

/-! ## Raffle contract and VRF coordinator mock (external call surface)

The Raffle contract and the Chainlink VRF coordinator mock are not part of
this repository; only their test drivers are. The definitions below are
modelled from the spec's description of the consumed call surface. -/

/-- The raffle lifecycle states observed by the tests: getter value "0" is
the open state, "1" the calculating state. -/
inductive RaffleState where
  | Open
  | Calculating
  deriving DecidableEq

/-- Observable state of the deployed Raffle contract, as read through its
getters: raffle state, player list, entrance fee, configured interval,
latest stored timestamp, contract balance and most recent winner. -/
structure Raffle where
  state : RaffleState
  players : List Nat
  entranceFee : Nat
  interval : Nat
  lastTimestamp : Nat
  balance : Nat
  recentWinner : Option Nat
  deriving DecidableEq

/-- Modelled from the spec: the Raffle contract's `checkUpkeep` is external
to this repository, and per the spec eligibility is true iff elapsed time
since the stored timestamp is at least the interval, the state is open, the
balance is positive and the participant count is positive. -/
def checkUpkeep (r : Raffle) (now : Nat) : Bool :=
  decide (r.interval ≤ now - r.lastTimestamp) && decide (r.state = RaffleState.Open)
    && decide (0 < r.balance) && decide (0 < r.players.length)

/-- Modelled from the spec: the Raffle contract's `fulfillRandomWords`
callback is external to this repository; per the spec a valid fulfillment
selects a winner from the players using the random word, empties the
participant list, returns the state to open, stores the current timestamp,
and transfers the accumulated balance to the winner. `balances` is the
external account-balance map. -/
def fulfillRaffle (r : Raffle) (balances : Nat → Nat) (rand now : Nat) :
    Raffle × (Nat → Nat) :=
  let winner := r.players.getD (rand % r.players.length) 0
  (Raffle.mk RaffleState.Open [] r.entranceFee r.interval now 0 (some winner),
    fun acct => if acct = winner then balances acct + r.balance else balances acct)

/-- State of the VRF coordinator mock: the next request id to hand out and
the ids of outstanding (issued, not yet fulfilled) requests. -/
structure VRFMock where
  nextRequestId : Nat
  outstanding : List Nat
  deriving DecidableEq

/-- Failure conditions of the VRF coordinator mock consumed by the tests. -/
inductive VRFError where
  | nonexistentRequest
  deriving DecidableEq

/-- The freshly deployed mock: no request issued yet; the first issued id is
positive, matching the test's `requestId.toNumber() > 0` assertion. -/
def initVRF : VRFMock := VRFMock.mk 1 []

/-- Modelled from the spec: issuing a randomness request returns a fresh
request id and records it as outstanding. -/
def requestRandomWords (m : VRFMock) : Nat × VRFMock :=
  (m.nextRequestId, VRFMock.mk (m.nextRequestId + 1) (m.outstanding ++ [m.nextRequestId]))

/-- Modelled from the spec: the mock's `fulfillRandomWords` fails with the
"nonexistent request" condition whenever the supplied id has no matching
outstanding request, and otherwise discharges the request. -/
def fulfillRandomWords (m : VRFMock) (requestId : Nat) : Except VRFError VRFMock :=
  if requestId ∈ m.outstanding then
    Except.ok (VRFMock.mk m.nextRequestId (m.outstanding.erase requestId))
  else Except.error VRFError.nonexistentRequest

/-- The list stored at the updated chain-id always contains the address, so
a second run with the same inputs finds it and changes nothing. -/
theorem update_twice_eq (reg : Registry) (c a : String) :
    updateContractAddresses (updateContractAddresses reg c a) c a =
      updateContractAddresses reg c a := by
  cases hl : lookupReg reg c with
  | none =>
    have h1 : updateContractAddresses reg c a = reg ++ [(c, [a])] := by
      simp [updateContractAddresses, hl]
    rw [h1]
    have h2 : lookupReg (reg ++ [(c, [a])]) c = some [a] := by
      rw [lookupReg_append_of_none hl]
      simp [lookupReg]
    simp [updateContractAddresses, h2]
  | some l =>
    by_cases hm : a ∈ l
    · have h1 : updateContractAddresses reg c a = reg := by
        simp [updateContractAddresses, hl, hm]
      rw [h1]
      exact h1
    · have h1 : updateContractAddresses reg c a = setKey reg c (l ++ [a]) := by
        simp [updateContractAddresses, hl, hm]
      rw [h1]
      have h2 : lookupReg (setKey reg c (l ++ [a])) c = some (l ++ [a]) :=
        lookupReg_setKey_self reg c (l ++ [a])
      simp [updateContractAddresses, h2]

/-- After one run the address occurs exactly once in the updated chain-id's
list, provided it occurred at most once before. -/
theorem count_lookup_update (reg : Registry) (c a : String)
    (h : ((lookupReg reg c).getD []).count a ≤ 1) :
    ((lookupReg (updateContractAddresses reg c a) c).getD []).count a = 1 := by
  rw [lookupReg_update_self]
  by_cases hm : a ∈ (lookupReg reg c).getD []
  · have h1 : 0 < ((lookupReg reg c).getD []).count a := List.count_pos_iff.mpr hm
    simp only [hm, if_pos, List.append_nil, Option.getD_some]
    omega
  · have h0 : ((lookupReg reg c).getD []).count a = 0 :=
      List.count_eq_zero.mpr hm
    simp [hm, List.count_append, h0]

/-- The no-duplicate invariant of the registry: no chain-id's list contains
a duplicated address. -/
def NodupRegistry (reg : Registry) : Prop := ∀ p ∈ reg, List.Nodup p.2

instance : DecidablePred NodupRegistry := fun reg =>
  inferInstanceAs (Decidable (∀ p ∈ reg, List.Nodup p.2))

/-! ## Claim theorems -/

/-- Claim C1: for every address and argument list, `verify` never raises —
it completes normally on every outcome of the external verification call.
When the call fails with a message whose lowercase form contains
"already verified" it logs the already-verified notice, and on every other
failure it logs the error; in both cases it completes normally, so a caller
cannot distinguish verification failure from success. -/
theorem verify_never_raises (contractAdress : List Char) (args : List (List Char))
    (runOutcome : Option (List Char)) :
    (verify contractAdress args runOutcome).1 = Except.ok () ∧
    (∀ e, runOutcome = some e →
      containsSub alreadyVerifiedPattern (lowerMsg e) = true →
      (verify contractAdress args runOutcome).2 =
        [LogEntry.verifyingContract, LogEntry.alreadyVerifiedNotice]) ∧
    (∀ e, runOutcome = some e →
      containsSub alreadyVerifiedPattern (lowerMsg e) = false →
      (verify contractAdress args runOutcome).2 =
        [LogEntry.verifyingContract, LogEntry.errorLogged e]) := by
  refine ⟨?_, ?_, ?_⟩
  · cases runOutcome with
    | none => rfl
    | some e =>
      by_cases h : containsSub alreadyVerifiedPattern (lowerMsg e) = true
      · simp [verify, h]
      · simp [verify, h]
  · intro e he h
    subst he
    simp [verify, h]
  · intro e he h
    subst he
    simp [verify, h]

/-- Witness for C1 at a concrete address, argument list and generic error
message: `verify` completes normally and logs the error. -/
theorem verify_never_raises_witness :
    (verify "0xabc".toList [] (some "boom".toList)).1 = Except.ok () ∧
    (verify "0xabc".toList [] (some "boom".toList)).2 =
      [LogEntry.verifyingContract, LogEntry.errorLogged "boom".toList] :=
  ⟨(verify_never_raises "0xabc".toList [] (some "boom".toList)).1,
    (verify_never_raises "0xabc".toList [] (some "boom".toList)).2.2
      "boom".toList rfl (by decide)⟩

/-- Claim C8: the already-verified match is case-insensitive — for every
error message that contains "already verified" after lowercasing (e.g.
"Already Verified"), `verify` takes the already-verified branch rather than
the generic error-logging branch, because it lowercases the message before
the substring test. -/
theorem verify_alreadyVerified_caseInsensitive (contractAdress : List Char)
    (args : List (List Char)) (e : List Char)
    (h : containsSub alreadyVerifiedPattern (lowerMsg e) = true) :
    (verify contractAdress args (some e)).2 =
      [LogEntry.verifyingContract, LogEntry.alreadyVerifiedNotice] := by
  simp [verify, h]

/-- Witness for C8 at the mixed-case message "Already Verified". -/
theorem verify_alreadyVerified_caseInsensitive_witness :
    (verify "0xabc".toList [] (some "Already Verified".toList)).2 =
      [LogEntry.verifyingContract, LogEntry.alreadyVerifiedNotice] :=
  verify_alreadyVerified_caseInsensitive "0xabc".toList [] "Already Verified".toList
    (by decide)

/-- Claim C2: one run of the FrontEndSync address update on any prior
registry appends a new single-element binding when the chain-id key is
absent, appends the address to the existing list when the key is present
and the address missing, and in every case (change or not) writes the
registry file back exactly once. -/
theorem updateContractAddresses_spec (reg : Registry) (c a : String) :
    (lookupReg reg c = none →
      updateContractAddresses reg c a = reg ++ [(c, [a])]) ∧
    (∀ l, lookupReg reg c = some l → a ∉ l →
      lookupReg (updateContractAddresses reg c a) c = some (l ++ [a])) ∧
    (∀ ab, (runAddressUpdate (Files.mk (FileState.valid reg) ab) c a).2.2 =
      [WriteEvent.writeAddresses (updateContractAddresses reg c a)]) := by
  refine ⟨?_, ?_, ?_⟩
  · intro h
    simp [updateContractAddresses, h]
  · intro l hl hm
    simp [updateContractAddresses, hl, hm, lookupReg_setKey_self]
  · intro ab
    rfl

/-- Witness for C2: an absent chain-id gets a fresh single-element binding,
a present one gets the address appended, and the write event fires. -/
theorem updateContractAddresses_spec_witness :
    updateContractAddresses [("1", ["0xa"])] "5" "0xb" =
      [("1", ["0xa"])] ++ [("5", ["0xb"])] ∧
    lookupReg (updateContractAddresses [("1", ["0xa"])] "1" "0xb") "1" =
      some (["0xa"] ++ ["0xb"]) ∧
    (runAddressUpdate (Files.mk (FileState.valid [("1", ["0xa"])]) []) "1" "0xa").2.2 =
      [WriteEvent.writeAddresses (updateContractAddresses [("1", ["0xa"])] "1" "0xa")] :=
  ⟨(updateContractAddresses_spec [("1", ["0xa"])] "5" "0xb").1 (by decide),
    (updateContractAddresses_spec [("1", ["0xa"])] "1" "0xb").2.1 ["0xa"]
      (by decide) (by decide),
    (updateContractAddresses_spec [("1", ["0xa"])] "1" "0xa").2.2 []⟩

/-- Claim C9: the address update is frame-preserving — every chain-id other
than the current one keeps exactly its previous list, and the current
chain-id's list is its previous list (empty when absent) with the new
address appended at the end exactly when it was not already present, so
prior addresses keep their positions. -/
theorem updateContractAddresses_frame (reg : Registry) (c a : String) (k : String)
    (hk : k ≠ c) :
    lookupReg (updateContractAddresses reg c a) k = lookupReg reg k ∧
    lookupReg (updateContractAddresses reg c a) c =
      some ((lookupReg reg c).getD [] ++
        (if a ∈ (lookupReg reg c).getD [] then [] else [a])) :=
  ⟨lookupReg_update_ne reg c a hk, lookupReg_update_self reg c a⟩

/-- Witness for C9: updating chain-id "5" leaves chain-id "1" untouched and
appends the new address at the end of chain "5"'s list. -/
theorem updateContractAddresses_frame_witness :
    lookupReg (updateContractAddresses [("1", ["0xa"]), ("5", ["0xb"])] "5" "0xc") "1" =
      lookupReg [("1", ["0xa"]), ("5", ["0xb"])] "1" ∧
    lookupReg (updateContractAddresses [("1", ["0xa"]), ("5", ["0xb"])] "5" "0xc") "5" =
      some ((lookupReg [("1", ["0xa"]), ("5", ["0xb"])] "5").getD [] ++
        (if "0xc" ∈ (lookupReg [("1", ["0xa"]), ("5", ["0xb"])] "5").getD []
          then [] else ["0xc"])) :=
  updateContractAddresses_frame [("1", ["0xa"]), ("5", ["0xb"])] "5" "0xc" "1" (by decide)

/-- Claim C10: when the registry file is missing or not valid JSON, the
address update raises before performing any write: no write event occurs,
both files are returned exactly as they were, and in particular a missing
registry file is never created. -/
theorem runAddressUpdate_raises_on_bad_file (fs : Files) (c a : String)
    (h : fs.addresses = FileState.missing ∨ fs.addresses = FileState.invalid) :
    runAddressUpdate fs c a = (Except.error (), fs, []) := by
  obtain ⟨af, ab⟩ := fs
  cases af with
  | missing => rfl
  | invalid => rfl
  | valid reg => rcases h with h | h <;> simp [Files.addresses] at h

/-- Witness for C10: on a missing registry file the run errors and leaves
the file system (including the interface-description file) unchanged. -/
theorem runAddressUpdate_raises_on_bad_file_witness :
    runAddressUpdate (Files.mk FileState.missing "abi".toList) "1" "0xa" =
      (Except.error (), Files.mk FileState.missing "abi".toList, []) :=
  runAddressUpdate_raises_on_bad_file (Files.mk FileState.missing "abi".toList)
    "1" "0xa" (Or.inl rfl)

/-- Claim C3: running the address update twice with the same chain-id and
address is idempotent — the second run returns the registry of the first
run unchanged — and afterwards the chain-id's list contains the address
exactly once, given that (per the registry's no-duplication invariant) it
contained it at most once before. -/
theorem updateContractAddresses_idem (reg : Registry) (c a : String) :
    updateContractAddresses (updateContractAddresses reg c a) c a =
      updateContractAddresses reg c a ∧
    (((lookupReg reg c).getD []).count a ≤ 1 →
      ((lookupReg (updateContractAddresses
        (updateContractAddresses reg c a) c a) c).getD []).count a = 1) := by
  refine ⟨update_twice_eq reg c a, ?_⟩
  intro h
  rw [update_twice_eq reg c a]
  exact count_lookup_update reg c a h

/-- Witness for C3: two runs adding "0xb" to chain "1" agree with one run
and leave exactly one occurrence of "0xb". -/
theorem updateContractAddresses_idem_witness :
    updateContractAddresses (updateContractAddresses [("1", ["0xa"])] "1" "0xb") "1" "0xb" =
      updateContractAddresses [("1", ["0xa"])] "1" "0xb" ∧
    ((lookupReg (updateContractAddresses
      (updateContractAddresses [("1", ["0xa"])] "1" "0xb") "1" "0xb") "1").getD
        []).count "0xb" = 1 :=
  ⟨(updateContractAddresses_idem [("1", ["0xa"])] "1" "0xb").1,
    (updateContractAddresses_idem [("1", ["0xa"])] "1" "0xb").2 (by decide)⟩

/-- Claim C4: the no-duplicate invariant is preserved — if no chain-id's
list contains a duplicate, the same holds after one address update with any
chain-id and address. -/
theorem updateContractAddresses_preserves_nodup (reg : Registry) (c a : String)
    (h : NodupRegistry reg) : NodupRegistry (updateContractAddresses reg c a) := by
  cases hl : lookupReg reg c with
  | none =>
    have h1 : updateContractAddresses reg c a = reg ++ [(c, [a])] := by
      simp [updateContractAddresses, hl]
    rw [h1]
    intro p hp
    rcases List.mem_append.mp hp with hp | hp
    · exact h p hp
    · simp only [List.mem_singleton] at hp
      rw [hp]
      simp
  | some l =>
    by_cases hm : a ∈ l
    · have h1 : updateContractAddresses reg c a = reg := by
        simp [updateContractAddresses, hl, hm]
      rw [h1]
      exact h
    · have h1 : updateContractAddresses reg c a = setKey reg c (l ++ [a]) := by
        simp [updateContractAddresses, hl, hm]
      rw [h1]
      intro p hp
      rcases mem_setKey hp with hp | hp
      · exact h p hp
      · have hlnd : l.Nodup := h (c, l) (lookupReg_mem hl)
        rw [hp]
        simpa [List.nodup_append] using ⟨hlnd, hm⟩

/-- Witness for C4: a duplicate-free registry stays duplicate-free after
adding a fresh address to an existing chain. -/
theorem updateContractAddresses_preserves_nodup_witness :
    NodupRegistry (updateContractAddresses [("1", ["0xa"])] "1" "0xb") :=
  updateContractAddresses_preserves_nodup [("1", ["0xa"])] "1" "0xb" (by decide)

/-- Claim C5: the upkeep-eligibility check returns true iff the elapsed
time since the stored timestamp is at least the interval, the state is
open, the balance is positive and the participant count is positive — and
hence returns false under the negation of any one condition. -/
theorem checkUpkeep_iff (r : Raffle) (now : Nat) :
    checkUpkeep r now = true ↔
      (r.interval ≤ now - r.lastTimestamp ∧ r.state = RaffleState.Open ∧
        0 < r.balance ∧ 0 < r.players.length) := by
  simp [checkUpkeep, and_assoc]

/-- Claim C6: fulfilling a request id with no matching outstanding request
always fails with the "nonexistent request" condition — in general, on the
fresh mock where zero requests have been issued, and after exactly one
request has been issued (for every other id). -/
theorem fulfillRandomWords_nonexistent (m : VRFMock) (requestId : Nat) :
    (requestId ∉ m.outstanding →
      fulfillRandomWords m requestId = Except.error VRFError.nonexistentRequest) ∧
    fulfillRandomWords initVRF requestId = Except.error VRFError.nonexistentRequest ∧
    (requestId ≠ (requestRandomWords initVRF).1 →
      fulfillRandomWords (requestRandomWords initVRF).2 requestId =
        Except.error VRFError.nonexistentRequest) := by
  refine ⟨?_, ?_, ?_⟩
  · intro h
    simp [fulfillRandomWords, h]
  · simp [fulfillRandomWords, initVRF]
  · intro h
    have h1 : requestId ≠ 1 := h
    simp [fulfillRandomWords, requestRandomWords, initVRF, h1]

/-- Witness for C6 at request id 0, matching the unit test's
`fulfillRandomWords(0, ...)` call before and after one issued request. -/
theorem fulfillRandomWords_nonexistent_witness :
    fulfillRandomWords initVRF 0 = Except.error VRFError.nonexistentRequest ∧
    fulfillRandomWords (requestRandomWords initVRF).2 0 =
      Except.error VRFError.nonexistentRequest :=
  ⟨(fulfillRandomWords_nonexistent initVRF 0).1 (by decide),
    (fulfillRandomWords_nonexistent initVRF 0).2.2 (by decide)⟩

/-- Claim C7: after a valid fulfillment (state calculating, balance equal to
the entry fee times the participant count, at least one participant, clock
strictly past the stored timestamp) the participant count resets to zero,
the state returns to open, the stored timestamp strictly advances, and the
selected winner — a member of the player list — gains exactly the entry fee
multiplied by the number of participants. -/
theorem fulfillRaffle_resets (r : Raffle) (balances : Nat → Nat) (rand now : Nat)
    (hs : r.state = RaffleState.Calculating)
    (hb : r.balance = r.entranceFee * r.players.length)
    (hp : r.players ≠ [])
    (ht : r.lastTimestamp < now) :
    (fulfillRaffle r balances rand now).1.players.length = 0 ∧
    (fulfillRaffle r balances rand now).1.state = RaffleState.Open ∧
    r.lastTimestamp < (fulfillRaffle r balances rand now).1.lastTimestamp ∧
    (fulfillRaffle r balances rand now).1.recentWinner =
      some (r.players.getD (rand % r.players.length) 0) ∧
    r.players.getD (rand % r.players.length) 0 ∈ r.players ∧
    (fulfillRaffle r balances rand now).2 (r.players.getD (rand % r.players.length) 0) =
      balances (r.players.getD (rand % r.players.length) 0) +
        r.entranceFee * r.players.length := by
  have hlen : 0 < r.players.length := List.length_pos.mpr hp
  have hidx : rand % r.players.length < r.players.length := Nat.mod_lt _ hlen
  refine ⟨rfl, rfl, ?_, rfl, ?_, ?_⟩
  · simpa [fulfillRaffle] using ht
  · have hget : r.players.getD (rand % r.players.length) 0 =
        r.players.get ⟨rand % r.players.length, hidx⟩ := by
      rw [List.getD_eq_get?, List.get?_eq_get hidx]
      rfl
    rw [hget]
    exact List.get_mem _ _ _
  · simp [fulfillRaffle, hb]

/-- Witness for C7: a two-player raffle in the calculating state holding
twice the entry fee pays the selected winner the whole pot and resets. -/
theorem fulfillRaffle_resets_witness :
    (fulfillRaffle (Raffle.mk RaffleState.Calculating [7, 8] 5 10 0 10 none)
      (fun _ => 100) 3 4).1.players.length = 0 ∧
    (fulfillRaffle (Raffle.mk RaffleState.Calculating [7, 8] 5 10 0 10 none)
      (fun _ => 100) 3 4).1.state = RaffleState.Open ∧
    (Raffle.mk RaffleState.Calculating [7, 8] 5 10 0 10 none).lastTimestamp <
      (fulfillRaffle (Raffle.mk RaffleState.Calculating [7, 8] 5 10 0 10 none)
        (fun _ => 100) 3 4).1.lastTimestamp ∧
    (fulfillRaffle (Raffle.mk RaffleState.Calculating [7, 8] 5 10 0 10 none)
      (fun _ => 100) 3 4).1.recentWinner =
      some (([7, 8] : List Nat).getD (3 % ([7, 8] : List Nat).length) 0) ∧
    ([7, 8] : List Nat).getD (3 % ([7, 8] : List Nat).length) 0 ∈ ([7, 8] : List Nat) ∧
    (fulfillRaffle (Raffle.mk RaffleState.Calculating [7, 8] 5 10 0 10 none)
      (fun _ => 100) 3 4).2 (([7, 8] : List Nat).getD (3 % ([7, 8] : List Nat).length) 0) =
      (fun _ => (100 : Nat)) (([7, 8] : List Nat).getD (3 % ([7, 8] : List Nat).length) 0) +
        5 * ([7, 8] : List Nat).length :=
  fulfillRaffle_resets (Raffle.mk RaffleState.Calculating [7, 8] 5 10 0 10 none)
    (fun _ => 100) 3 4 rfl (by decide) (by decide) (by decide)
